import Mathlib

/-!
Verification of the TrendNode repository: a shallow embedding of its
graph data model, custom force-layout engine, expansion orchestrator and
history log, together with theorems settling the specification's claims.

Numbers are modelled as rationals; `Math.sqrt` (a transcendental
operation on JS floats) is modelled as an explicit function parameter
`sq : ℚ → ℚ`, and theorems that need its defining properties take them
as hypotheses at the points where they are used.  `Math.cos`, `Math.sin`
and `Math.PI` are likewise passed as parameters where the expansion code
uses them.
-/

/-- The `TrendNode` interface from `types.ts`.  Optional boolean fields
(`isInitial`) default to `false` (JS treats `undefined` as falsy in the
places they are read); optional numeric fields are `Option`s. -/
structure NodeT where
  id : String
  label : String
  translation : String
  x : ℚ
  y : ℚ
  fx : Option ℚ := none
  fy : Option ℚ := none
  level : Int
  isSelected : Bool
  isInitial : Bool := false
  weight : Option ℚ := none
deriving DecidableEq

/-- The `Edge` interface from `types.ts`: endpoints stored as plain node ids. -/
structure Edge where
  id : String
  source : String
  target : String
deriving DecidableEq

/-- The `TrendKeyword` interface from `services/geminiService.ts`. -/
structure Trend where
  keyword : String
  translation : String
  weight : ℚ
deriving DecidableEq

/-- The `HistoryItem` interface from `types.ts`. -/
structure Hist where
  id : String
  query : String
  timestamp : Int
  nodes : List NodeT
  edges : List Edge
deriving DecidableEq

/-- The physics engine's velocity table
(`velocitiesRef.current : { [key: string]: { vx, vy } }`),
modelled as an association list from node id to `(vx, vy)`. -/
abbrev VelMap := List (String × ℚ × ℚ)

/-- Reading `velocities[k]` from the table. -/
def lookupV (k : String) : VelMap → Option (ℚ × ℚ)
  | [] => none
  | (k1, v) :: rest => if k1 = k then some v else lookupV k rest

/-- The JS pattern `if (velocities[k]) { velocities[k].vx = ...; ... }`:
modify the entry for `k` in place when it exists, do nothing otherwise. -/
def updV : VelMap → String → (ℚ × ℚ → ℚ × ℚ) → VelMap
  | [], _, _ => []
  | (k1, v) :: rest, k, f =>
    if k1 = k then (k1, f v) :: updV rest k f else (k1, v) :: updV rest k f

/-- The JS assignment `velocities[k] = v`: overwrite the entry when the key
exists, append a fresh entry otherwise. -/
def insertV (m : VelMap) (k : String) (v : ℚ × ℚ) : VelMap :=
  if (lookupV k m).isSome then updV m k (fun _ => v) else m ++ [(k, v)]

/-! ## Physics constants (custom engine file) -/

def REPULSION_STRENGTH : ℚ := 12000
def SPRING_STRENGTH : ℚ := 6 / 100
def DAMPING : ℚ := 82 / 100
def IDEAL_DISTANCE : ℚ := 240
def CENTER_GRAVITY : ℚ := 4 / 1000

/-! ## Step 1: pairwise repulsion (`updatePhysics`, custom engine) -/

/-- `(node.isInitial || node.isSelected ? 75 : 60)`: the visual radius
used by the custom engine's minimum-separation threshold. -/
def nodeRadius (n : NodeT) : ℚ :=
  if n.isInitial || n.isSelected then 75 else 60

/-- `dx*dx + dy*dy` for the pair `(a, b)` with `dx = b.x - a.x`,
`dy = b.y - a.y`. -/
def rawDistSq (a b : NodeT) : ℚ :=
  (b.x - a.x) * (b.x - a.x) + (b.y - a.y) * (b.y - a.y)

/-- `const distanceSq = dx*dx + dy*dy || 1`: a zero squared distance is
replaced by one (the only falsy value the expression can produce). -/
def effDistSq (a b : NodeT) : ℚ :=
  if rawDistSq a b = 0 then 1 else rawDistSq a b

/-- `const minDistance = radiusA + radiusB + 20`. -/
def minSeparation (a b : NodeT) : ℚ :=
  nodeRadius a + nodeRadius b + 20

/-- The repulsion force magnitude:
`distance < minDistance ? (minDistance - distance) * 0.5
                        : REPULSION_STRENGTH / distanceSq`. -/
def repForce (sq : ℚ → ℚ) (a b : NodeT) : ℚ :=
  let distance := sq (effDistSq a b)
  if distance < minSeparation a b then (minSeparation a b - distance) * (1 / 2)
  else REPULSION_STRENGTH / effDistSq a b

/-- The body of the double loop in step 1: compute the pair force and add
it to both endpoints' velocities (subtracting on `a`, adding on `b`),
each update guarded by the existence of the velocity entry. -/
def applyRepulsion (sq : ℚ → ℚ) (a b : NodeT) (m : VelMap) : VelMap :=
  let dx := b.x - a.x
  let dy := b.y - a.y
  let distance := sq (effDistSq a b)
  let force := repForce sq a b
  let fx := dx / distance * force
  let fy := dy / distance * force
  let m1 := updV m a.id (fun v => (v.1 - fx, v.2 - fy))
  updV m1 b.id (fun v => (v.1 + fx, v.2 + fy))

/-- All unordered pairs `(i, j)` with `i < j`, in the double loop's order. -/
def orderedPairs : List NodeT → List (NodeT × NodeT)
  | [] => []
  | a :: rest => rest.map (fun b => (a, b)) ++ orderedPairs rest

/-- Step 1 of `updatePhysics`: repulsion over every unordered node pair. -/
def repulsionStep (sq : ℚ → ℚ) (ns : List NodeT) (m : VelMap) : VelMap :=
  (orderedPairs ns).foldl (fun acc p => applyRepulsion sq p.1 p.2 acc) m

/-! ## Step 2: spring forces along edges -/

/-- The body of `edges.forEach` in step 2: resolve both endpoints with
`find`; when both exist apply the spring force symmetrically, otherwise
do nothing (dangling edges are skipped without error). -/
def applySpring (sq : ℚ → ℚ) (ns : List NodeT) (e : Edge) (m : VelMap) : VelMap :=
  match ns.find? (fun n => n.id = e.source), ns.find? (fun n => n.id = e.target) with
  | some s, some t =>
    let dx := t.x - s.x
    let dy := t.y - s.y
    let distance := if sq (dx * dx + dy * dy) = 0 then 1 else sq (dx * dx + dy * dy)
    let force := (distance - IDEAL_DISTANCE) * SPRING_STRENGTH
    let fx := dx / distance * force
    let fy := dy / distance * force
    let m1 := updV m s.id (fun v => (v.1 + fx, v.2 + fy))
    updV m1 t.id (fun v => (v.1 - fx, v.2 - fy))
  | _, _ => m

/-- Step 2 of `updatePhysics`: spring forces over the edge list. -/
def springStep (sq : ℚ → ℚ) (ns : List NodeT) (es : List Edge) (m : VelMap) : VelMap :=
  es.foldl (fun acc e => applySpring sq ns e acc) m

/-- Whether both endpoints of an edge resolve to nodes of the list (the
condition under which step 2 applies a force; also the predicate of the
d3 version's `validLinks` filter). -/
def validEdge (ns : List NodeT) (e : Edge) : Bool :=
  (ns.find? (fun n => n.id = e.source)).isSome &&
    (ns.find? (fun n => n.id = e.target)).isSome

/-! ## Step 3: center gravity and wall nudges -/

/-- The body of `currentNodes.forEach` in step 3: early-return when the
node has no velocity entry; otherwise pull toward the viewport center and
nudge away from each wall the node is within 100px of. -/
def applyGravity (winW winH : ℚ) (n : NodeT) (m : VelMap) : VelMap :=
  match lookupV n.id m with
  | none => m
  | some _ =>
    let dx := winW / 2 - n.x
    let dy := winH / 2 - n.y
    let m1 := updV m n.id (fun v => (v.1 + dx * CENTER_GRAVITY, v.2 + dy * CENTER_GRAVITY))
    let m2 := if n.x < 100 then updV m1 n.id (fun v => (v.1 + 2, v.2)) else m1
    let m3 := if n.x > winW - 100 then updV m2 n.id (fun v => (v.1 - 2, v.2)) else m2
    let m4 := if n.y < 100 then updV m3 n.id (fun v => (v.1, v.2 + 2)) else m3
    if n.y > winH - 100 then updV m4 n.id (fun v => (v.1, v.2 - 2)) else m4

/-- Step 3 of `updatePhysics` over the node list. -/
def gravityStep (winW winH : ℚ) (ns : List NodeT) (m : VelMap) : VelMap :=
  ns.foldl (fun acc n => applyGravity winW winH n acc) m

/-! ## Step 4: integration -/

/-- The body of `currentNodes.map` in step 4: the dragged node and nodes
without a velocity entry are returned unchanged; otherwise the velocity
is damped, speed-clamped to 18, written back, and added to the position. -/
def integrateNode (sq : ℚ → ℚ) (dragId : Option String) (m : VelMap) (n : NodeT) :
    NodeT × VelMap :=
  if some n.id = dragId then (n, m)
  else
    match lookupV n.id m with
    | none => (n, m)
    | some v =>
      let vd := (v.1 * DAMPING, v.2 * DAMPING)
      let speed := sq (vd.1 * vd.1 + vd.2 * vd.2)
      let v2 := if speed > 18 then (vd.1 / speed * 18, vd.2 / speed * 18) else vd
      ({ n with x := n.x + v2.1, y := n.y + v2.2 }, updV m n.id (fun _ => v2))

/-- Step 4 of `updatePhysics`: left-to-right map over the node list,
threading the (mutated in place in JS) velocity table. -/
def integrateStep (sq : ℚ → ℚ) (dragId : Option String) (m : VelMap) :
    List NodeT → List NodeT × VelMap
  | [] => ([], m)
  | n :: rest =>
    let r := integrateNode sq dragId m n
    let rr := integrateStep sq dragId r.2 rest
    (r.1 :: rr.1, rr.2)

/-! ## The full tick -/

/-- The state read and written by one `updatePhysics` tick. -/
structure PhysState where
  nodes : List NodeT
  edges : List Edge
  vels : VelMap
  dragId : Option String
deriving DecidableEq

/-- Whether any node moved more than 0.05 on either axis (the
convergence gate of step 6). -/
def significantChange (updated old : List NodeT) : Bool :=
  (updated.zip old).any
    (fun p => decide (1 / 20 < |p.1.x - p.2.x| ∨ 1 / 20 < |p.1.y - p.2.y|))

/-- One tick of the custom engine's `updatePhysics`: early return on an
empty node list; otherwise repulsion, springs, gravity/walls, integration;
the velocity table is committed unconditionally and the new positions only
when the change is significant or a drag is active. -/
def updatePhysics (sq : ℚ → ℚ) (winW winH : ℚ) (st : PhysState) : PhysState :=
  if st.nodes = [] then st
  else
    let m1 := repulsionStep sq st.nodes st.vels
    let m2 := springStep sq st.nodes st.edges m1
    let m3 := gravityStep winW winH st.nodes m2
    let r := integrateStep sq st.dragId m3 st.nodes
    let committed := if significantChange r.1 st.nodes || !(st.dragId = none) then r.1 else st.nodes
    { st with nodes := committed, vels := r.2 }

/-- `handleNodeMouseDown` (custom engine): capture the node as dragged and
reset its velocity to zero when it has a velocity entry. -/
def handleNodeMouseDown (st : PhysState) (n : NodeT) : PhysState :=
  { st with dragId := some n.id, vels := updV st.vels n.id (fun _ => (0, 0)) }

/-! ## The d3 version's collision radius -/

/-- The `forceCollide().radius(...)` callback of the d3 version:
`baseSize + (d.weight ? d.weight * 2.5 : 10)` where `baseSize` is 90 for
initial/selected nodes and 75 otherwise (`0` and `undefined` weights are
falsy). -/
def collideRadius (n : NodeT) : ℚ :=
  let baseSize : ℚ := if n.isInitial || n.isSelected then 90 else 75
  baseSize + (match n.weight with
    | some w => if w = 0 then 10 else w * (5 / 2)
    | none => 10)

/-! ## Expansion orchestrator (custom engine file) -/

/-- One iteration of the `trends.forEach((trend, i) => ...)` body of the
custom engine's `handleNodeClick`: the new node on the circle of radius 80
around the source, its outward pop velocity of magnitude 5, and its edge
from the source.  `num` is `trends.length` and `id` the freshly generated
random id. -/
def mkExpandedNode (co si : ℚ → ℚ) (pi : ℚ) (target : NodeT) (num i : ℕ)
    (t : Trend) (id : String) : NodeT × Edge × (String × ℚ × ℚ) :=
  let angle := ((i : ℚ) / (num : ℚ)) * pi * 2
  let startDist : ℚ := 80
  let pushForce : ℚ := 5
  (⟨id, t.keyword, t.translation, target.x + co angle * startDist,
      target.y + si angle * startDist, none, none, target.level + 1,
      false, false, none⟩,
   ⟨"e-" ++ target.id ++ "-" ++ id, target.id, id⟩,
   (id, co angle * pushForce, si angle * pushForce))

/-- The whole `trends.forEach` loop, pairing each trend with its fresh id
and its loop index. -/
def expandResults (co si : ℚ → ℚ) (pi : ℚ) (target : NodeT) (num : ℕ) :
    ℕ → List Trend → List String → List (NodeT × Edge × (String × ℚ × ℚ))
  | i, t :: ts, id :: ids =>
    mkExpandedNode co si pi target num i t id :: expandResults co si pi target num (i + 1) ts ids
  | _, _, [] => []
  | _, [], _ => []

/-- Seed the velocity table with the pop velocities of the new nodes
(`velocitiesRef.current[id] = {vx, vy}` inside the loop). -/
def seedVels (m : VelMap) : List (String × ℚ × ℚ) → VelMap
  | [] => m
  | (id, v) :: rest => seedVels (insertV m id v) rest

/-- The state touched by the custom engine's `handleNodeClick`. -/
structure AppState2 where
  nodes : List NodeT
  edges : List Edge
  vels : VelMap
  loading : Bool
  expandingNodeId : Option String
  hasMoved : Bool
deriving DecidableEq

/-- The custom engine's `handleNodeClick`, with the awaited
`fetchNewsTrends` outcome passed in as `result` (`Except` models a
rejected promise) and the randomly generated ids as `ids`.  The guard
rejects while `loading` or right after a drag; the `finally` block clears
`loading` and `expandingNodeId` on every path. -/
def handleNodeClick2 (co si : ℚ → ℚ) (pi : ℚ) (st : AppState2) (target : NodeT)
    (result : Except Unit (List Trend)) (ids : List String) : AppState2 :=
  if st.loading || st.hasMoved then st
  else
    match result with
    | .ok trends =>
      let r := expandResults co si pi target trends.length 0 trends ids
      { st with
        nodes := st.nodes ++ r.map (fun p => p.1),
        edges := st.edges ++ r.map (fun p => p.2.1),
        vels := seedVels st.vels (r.map (fun p => p.2.2)),
        loading := false, expandingNodeId := none }
    | .error _ => { st with loading := false, expandingNodeId := none }

/-! ## The d3 version: expansion, history, input -/

/-- One element of the d3 version's `trends.map((trend, i) => ...)`:
radius 50 around the source, weight recorded, no seeded velocity. -/
def mkNode1 (co si : ℚ → ℚ) (pi : ℚ) (target : NodeT) (num i : ℕ)
    (t : Trend) (id : String) : NodeT :=
  let angle := ((i : ℚ) / (num : ℚ)) * pi * 2
  let dist : ℚ := 50
  ⟨id, t.keyword, t.translation, target.x + co angle * dist,
    target.y + si angle * dist, none, none, target.level + 1,
    false, false, some t.weight⟩

/-- The d3 version's expansion node list. -/
def mkNodes1 (co si : ℚ → ℚ) (pi : ℚ) (target : NodeT) (num : ℕ) :
    ℕ → List Trend → List String → List NodeT
  | i, t :: ts, id :: ids =>
    mkNode1 co si pi target num i t id :: mkNodes1 co si pi target num (i + 1) ts ids
  | _, _, [] => []
  | _, [], _ => []

/-- `setHistory(h => [{id, query, timestamp, nodes, edges}, ...h])`:
prepend a full snapshot to the history log. -/
def recordHistory (histId query : String) (ts : Int) (ns : List NodeT)
    (es : List Edge) (h : List Hist) : List Hist :=
  ⟨histId, query, ts, ns, es⟩ :: h

/-- `{ ...n, fx: null, fy: null }`: clear the drag pin of a node. -/
def clearPin (n : NodeT) : NodeT :=
  { n with fx := none, fy := none }

/-- `handleHistoryClick`'s data restoration: the stored nodes with pins
cleared, and the stored edges. -/
def restoreHistory (item : Hist) : List NodeT × List Edge :=
  (item.nodes.map clearPin, item.edges)

/-- Modelled from the spec: the Layout Engine state reset that
accompanies a history restoration.  `handleHistoryClick` discards the d3
simulation object (`simulationRef.current = null`); the re-initialisation
of per-node velocities happens inside the external d3 library, which is
not part of this repository's sources.  The spec says restored graphs are
treated as fresh, with velocities reset to zero. -/
def freshEngineVels (ns : List NodeT) : VelMap :=
  ns.map (fun n => (n.id, ((0 : ℚ), (0 : ℚ))))

/-- `Math.max(...levels)` for a non-empty list (only called when the
selection is non-empty). -/
def maxLevel : List Int → Int
  | [] => 0
  | x :: xs => xs.foldl max x

/-- The state touched by the d3 version's handlers. -/
structure AppState1 where
  nodes : List NodeT
  edges : List Edge
  history : List Hist
  currentHistoryId : Option String
  expanding : List String
  hasMoved : Bool
  isInitialSearching : Bool
deriving DecidableEq

/-- The d3 version's `handleInitialInput`: guard on empty query or a
search in flight; create the root / connect-to-selection node (fresh id
`nodeId`, random spawn offsets `rx ry`, `isChinese` the result of the
CJK regexp test on the query); record the new snapshot at the front of
the history. -/
def handleInitialInput1 (st : AppState1) (query : String) (isChinese : Bool)
    (nodeId histId : String) (ts : Int) (rx ry winW winH : ℚ) : AppState1 :=
  if query = "" || st.isInitialSearching then st
  else
    let selectedOnes := st.nodes.filter (fun n => n.isSelected)
    let newNode : NodeT :=
      { id := nodeId, label := query,
        translation := if isChinese then "Processing..." else query,
        x := winW / 2 + rx, y := winH / 2 + ry,
        level := if selectedOnes.length > 0
          then maxLevel (selectedOnes.map (fun n => n.level)) + 1 else 0,
        isSelected := false,
        isInitial := st.nodes.length = 0,
        weight := some 10 }
    let nextNodes := if selectedOnes.length > 0 then st.nodes ++ [newNode] else [newNode]
    let nextEdges := if selectedOnes.length > 0
      then st.edges ++ selectedOnes.map
        (fun sn => (⟨"e-" ++ sn.id ++ "-" ++ nodeId, sn.id, nodeId⟩ : Edge))
      else []
    { st with
      nodes := nextNodes, edges := nextEdges,
      history := recordHistory histId query ts nextNodes nextEdges st.history,
      currentHistoryId := some histId }

/-- The d3 version's `handleNodeClick`, with the awaited service outcome
passed as `result` and the generated ids as `ids`.  The returned boolean
records whether the external trend service was called.  The guard rejects
after a drag or while this node's expansion is outstanding; an empty
result list throws and is caught; the `finally` block removes the node id
from the expanding set on every path. -/
def handleNodeClick1 (co si : ℚ → ℚ) (pi : ℚ) (st : AppState1) (target : NodeT)
    (result : Except Unit (List Trend)) (ids : List String) : AppState1 × Bool :=
  if st.hasMoved || st.expanding.contains target.id then (st, false)
  else
    let exp1 := target.id :: st.expanding
    let expDone := exp1.filter (fun x => ¬ x = target.id)
    match result with
    | .ok trends =>
      if trends.length = 0 then ({ st with expanding := expDone }, true)
      else
        let newNodes := mkNodes1 co si pi target trends.length 0 trends ids
        let nextNodes := st.nodes ++ newNodes
        let nextEdges := st.edges ++ newNodes.map
          (fun nn => (⟨"e-" ++ target.id ++ "-" ++ nn.id, target.id, nn.id⟩ : Edge))
        let nextHist := match st.currentHistoryId with
          | some h => st.history.map
              (fun item => if item.id = h
                then { item with nodes := nextNodes, edges := nextEdges } else item)
          | none => st.history
        ({ st with nodes := nextNodes, edges := nextEdges, history := nextHist,
                   expanding := expDone }, true)
    | .error _ => ({ st with expanding := expDone }, true)

/-- The d3 version's `handleHistoryClick`: load the snapshot's nodes with
pins cleared and its edges, make it current. -/
def handleHistoryClick1 (st : AppState1) (item : Hist) : AppState1 :=
  { st with
    nodes := (restoreHistory item).1,
    edges := (restoreHistory item).2,
    currentHistoryId := some item.id }

/-- The graph states reachable through the graph-building handlers:
the empty initial state, root creation / connect-to-selection
(`handleInitialInput`) and expansion (`handleNodeClick`), with the
randomly generated ids assumed fresh and pairwise distinct — the id
generator draws 9-character random strings and the code performs no
collision check. -/
inductive ReachS : AppState1 → Prop where
  | init : ReachS ⟨[], [], [], none, [], false, false⟩
  | input (st : AppState1) (query : String) (isChinese : Bool)
      (nodeId histId : String) (ts : Int) (rx ry winW winH : ℚ)
      (h : ReachS st)
      (hfresh : nodeId ∉ st.nodes.map (fun n => n.id)) :
      ReachS (handleInitialInput1 st query isChinese nodeId histId ts rx ry winW winH)
  | click (st : AppState1) (co si : ℚ → ℚ) (pi : ℚ) (target : NodeT)
      (result : Except Unit (List Trend)) (ids : List String)
      (h : ReachS st)
      (hnodup : ids.Nodup)
      (hfresh : ∀ id ∈ ids, id ∉ st.nodes.map (fun n => n.id)) :
      ReachS (handleNodeClick1 co si pi st target result ids).1

/-- A square-root stand-in used by concrete evaluations: exact on the
squared distances that actually occur there. -/
def cexSqrt (q : ℚ) : ℚ :=
  if q = 25 then 5 else if q = 1 then 1 else 0

/-- A concrete two-node physics state with node `a` being dragged:
both nodes have zero velocity, `a` sits at the origin and `b` at
`(3, 4)`, well inside the minimum separation. -/
def cexSt : PhysState :=
  { nodes := [{ id := "a", label := "a", translation := "a", x := 0, y := 0,
                level := 0, isSelected := false },
              { id := "b", label := "b", translation := "b", x := 3, y := 4,
                level := 0, isSelected := false }],
    edges := [],
    vels := [("a", (0, 0))],
    dragId := some "a" }

/-! ## Helper lemmas -/

theorem lookupV_updV (m : VelMap) (k k2 : String) (f : ℚ × ℚ → ℚ × ℚ) :
    lookupV k (updV m k2 f) = if k2 = k then (lookupV k m).map f else lookupV k m := by
  induction m with
  | nil =>
    by_cases h : k2 = k <;> simp [updV, lookupV, h]
  | cons p rest ih =>
    obtain ⟨k1, v⟩ := p
    by_cases h12 : k1 = k2 <;> by_cases hk : k1 = k <;>
      simp_all [updV, lookupV]
    rw [if_neg (fun h => h12 h.symm)]

theorem effDistSq_pos (a b : NodeT) : 0 < effDistSq a b := by
  unfold effDistSq
  split
  · norm_num
  · rename_i h
    have h1 : 0 ≤ rawDistSq a b := by
      unfold rawDistSq
      have := mul_self_nonneg (b.x - a.x)
      have := mul_self_nonneg (b.y - a.y)
      linarith
    exact lt_of_le_of_ne h1 (Ne.symm h)

/-! ## Claim theorems -/

/-- C1: in a layout tick, the pairwise repulsion force between two nodes
is inversely proportional to the squared distance once the distance
reaches the minimum separation (the product of the force with the squared
distance is the constant repulsion strength); below the minimum
separation it is a linear restoring push of half the shortfall; a zero
squared distance is replaced by one, so no division by zero occurs; and
the separation threshold is the sum of the two visual radii plus a
margin, the radius depending on the initial/selected state (and, in the
d3 version's collision radius, on the weight). -/
theorem claim_C1 (sq : ℚ → ℚ) (a b : NodeT) :
    (rawDistSq a b = 0 → effDistSq a b = 1) ∧
    (minSeparation a b ≤ sq (effDistSq a b) →
      repForce sq a b * effDistSq a b = REPULSION_STRENGTH) ∧
    (sq (effDistSq a b) < minSeparation a b →
      repForce sq a b = (minSeparation a b - sq (effDistSq a b)) * (1 / 2)) ∧
    (minSeparation a b = nodeRadius a + nodeRadius b + 20) ∧
    (nodeRadius a = if a.isInitial || a.isSelected then 75 else 60) ∧
    (∀ w : ℚ, a.weight = some w → w ≠ 0 →
      collideRadius a = (if a.isInitial || a.isSelected then 90 else 75) + w * (5 / 2)) := by
  refine ⟨?_, ?_, ?_, rfl, rfl, ?_⟩
  · intro h
    simp [effDistSq, h]
  · intro h
    unfold repForce
    rw [if_neg (not_lt.mpr h)]
    exact div_mul_cancel₀ _ (ne_of_gt (effDistSq_pos a b))
  · intro h
    unfold repForce
    rw [if_pos h]
  · intro w hw hw0
    simp [collideRadius, hw, hw0]

/-- Witness for C1: two overlapping nodes at the same point (squared
distance 0 becomes 1), with the theorem instantiated once with a large
and once with a small square-root value to hit both force branches, and a
weighted node for the d3 collision radius. -/
theorem claim_C1_witness :
    (effDistSq ⟨"a", "a", "a", 0, 0, none, none, 0, false, true, none⟩
        ⟨"b", "b", "b", 0, 0, none, none, 0, false, false, none⟩ = 1) ∧
    (repForce (fun _ => 1000) ⟨"a", "a", "a", 0, 0, none, none, 0, false, true, none⟩
        ⟨"b", "b", "b", 0, 0, none, none, 0, false, false, none⟩ *
      effDistSq ⟨"a", "a", "a", 0, 0, none, none, 0, false, true, none⟩
        ⟨"b", "b", "b", 0, 0, none, none, 0, false, false, none⟩ = REPULSION_STRENGTH) ∧
    (repForce (fun _ => 1) ⟨"a", "a", "a", 0, 0, none, none, 0, false, true, none⟩
        ⟨"b", "b", "b", 0, 0, none, none, 0, false, false, none⟩ = (155 - 1) * (1 / 2)) ∧
    (collideRadius ⟨"a", "a", "a", 0, 0, none, none, 0, false, true, some 3⟩ = 90 + 3 * (5 / 2)) := by
  have h1 := claim_C1 (fun _ => 1000)
    ⟨"a", "a", "a", 0, 0, none, none, 0, false, true, none⟩
    ⟨"b", "b", "b", 0, 0, none, none, 0, false, false, none⟩
  have h2 := claim_C1 (fun _ => 1)
    ⟨"a", "a", "a", 0, 0, none, none, 0, false, true, none⟩
    ⟨"b", "b", "b", 0, 0, none, none, 0, false, false, none⟩
  have h3 := claim_C1 (fun _ => 1)
    ⟨"a", "a", "a", 0, 0, none, none, 0, false, true, some 3⟩
    ⟨"b", "b", "b", 0, 0, none, none, 0, false, false, none⟩
  refine ⟨h1.1 (by norm_num [rawDistSq]), h1.2.1 ?_, ?_, ?_⟩
  · norm_num [minSeparation, nodeRadius]
  · have hlt : (1 : ℚ) <
        minSeparation ⟨"a", "a", "a", 0, 0, none, none, 0, false, true, none⟩
          ⟨"b", "b", "b", 0, 0, none, none, 0, false, false, none⟩ := by
      norm_num [minSeparation, nodeRadius]
    have hr := h2.2.2.1 hlt
    rw [hr]
    norm_num [minSeparation, nodeRadius]
  · have hr := h3.2.2.2.2.2 3 rfl (by norm_num)
    rw [hr]
    norm_num

/-- C2: in the integration step of a tick, a node that is not dragged and
has a velocity entry has that velocity multiplied by the damping factor
(a constant strictly below 1), then clamped so that its speed cannot
exceed 18, and the resulting velocity is added to its position and
written back; a node with no velocity entry is returned unchanged. -/
theorem claim_C2 (sq : ℚ → ℚ) (dragId : Option String) (m : VelMap) (n : NodeT) :
    DAMPING < 1 ∧
    (lookupV n.id m = none → integrateNode sq dragId m n = (n, m)) ∧
    (∀ v vd speed v2, some n.id ≠ dragId → lookupV n.id m = some v →
      vd = (v.1 * DAMPING, v.2 * DAMPING) →
      speed = sq (vd.1 * vd.1 + vd.2 * vd.2) →
      v2 = (if speed > 18 then (vd.1 / speed * 18, vd.2 / speed * 18) else vd) →
      (integrateNode sq dragId m n).1.x = n.x + v2.1 ∧
      (integrateNode sq dragId m n).1.y = n.y + v2.2 ∧
      lookupV n.id (integrateNode sq dragId m n).2 = some v2 ∧
      (0 ≤ speed → speed * speed = vd.1 * vd.1 + vd.2 * vd.2 →
        v2.1 * v2.1 + v2.2 * v2.2 ≤ 18 * 18)) := by
  refine ⟨by norm_num [DAMPING], ?_, ?_⟩
  · intro h
    unfold integrateNode
    split
    · rfl
    · rw [h]
  · intro v vd speed v2 hd hv hvd hs hv2
    have hred : integrateNode sq dragId m n =
        ({ n with x := n.x + v2.1, y := n.y + v2.2 }, updV m n.id (fun _ => v2)) := by
      unfold integrateNode
      rw [if_neg hd, hv]
      subst hvd
      subst hs
      subst hv2
      rfl
    refine ⟨by rw [hred], by rw [hred], ?_, ?_⟩
    · rw [hred]
      simp [lookupV_updV, hv]
    · intro h0 hsq
      subst hv2
      by_cases hgt : speed > 18
      · rw [if_pos hgt]
        have hne : speed ≠ 0 := by positivity
        have key : vd.1 / speed * 18 * (vd.1 / speed * 18) +
            vd.2 / speed * 18 * (vd.2 / speed * 18) = 18 * 18 := by
          field_simp
          nlinarith [hsq]
        simp only [key]
        norm_num
      · rw [if_neg hgt]
        push_neg at hgt
        nlinarith [hsq, hgt, h0]

/-- Witness for C2: a node with velocity `(10, 0)`; damping gives
`(41/5, 0)`, the speed `41/5` is below the clamp, and the position
advances by the damped velocity; a node id absent from the table is left
unchanged. -/
theorem claim_C2_witness :
    DAMPING < 1 ∧
    (integrateNode (fun _ => 41 / 5) none [("z", (10, 0))]
      ⟨"n", "n", "n", 1, 2, none, none, 0, false, false, none⟩ =
        (⟨"n", "n", "n", 1, 2, none, none, 0, false, false, none⟩, [("z", (10, 0))])) ∧
    (integrateNode (fun _ => 41 / 5) none [("n", (10, 0))]
      ⟨"n", "n", "n", 1, 2, none, none, 0, false, false, none⟩).1.x = 1 + 41 / 5 ∧
    lookupV "n" (integrateNode (fun _ => 41 / 5) none [("n", (10, 0))]
      ⟨"n", "n", "n", 1, 2, none, none, 0, false, false, none⟩).2 = some (41 / 5, 0) ∧
    (41 / 5 : ℚ) * (41 / 5) + 0 * 0 ≤ 18 * 18 := by
  have habs := (claim_C2 (fun _ => 41 / 5) none [("z", (10, 0))]
    ⟨"n", "n", "n", 1, 2, none, none, 0, false, false, none⟩).2.1 (by simp [lookupV])
  have h := (claim_C2 (fun _ => 41 / 5) none [("n", (10, 0))]
    ⟨"n", "n", "n", 1, 2, none, none, 0, false, false, none⟩).2.2
    (10, 0) (41 / 5, 0) (41 / 5) (41 / 5, 0)
    (by simp) (by simp [lookupV]) (by norm_num [DAMPING]) rfl (by norm_num)
  refine ⟨by norm_num [DAMPING], habs, ?_, ?_, ?_⟩
  · have := h.1
    simpa using this
  · have := h.2.2.1
    simpa using this
  · have := h.2.2.2 (by norm_num) (by norm_num)
    simpa using this

/-- C10: a single pairwise interaction — one repulsion pair in step 1 or
one spring edge in step 2 — adds velocity deltas of equal magnitude and
opposite sign to its two endpoints, so when both endpoints have velocity
entries the sum of the two entries is unchanged by the interaction. -/
theorem claim_C10 (sq : ℚ → ℚ) (a b : NodeT) (m : VelMap) (ns : List NodeT) (e : Edge) :
    (∀ va vb, a.id ≠ b.id → lookupV a.id m = some va → lookupV b.id m = some vb →
      ∃ va2 vb2,
        lookupV a.id (applyRepulsion sq a b m) = some va2 ∧
        lookupV b.id (applyRepulsion sq a b m) = some vb2 ∧
        va2.1 + vb2.1 = va.1 + vb.1 ∧ va2.2 + vb2.2 = va.2 + vb.2) ∧
    (∀ s t vs vt,
      ns.find? (fun n => n.id = e.source) = some s →
      ns.find? (fun n => n.id = e.target) = some t →
      s.id ≠ t.id → lookupV s.id m = some vs → lookupV t.id m = some vt →
      ∃ vs2 vt2,
        lookupV s.id (applySpring sq ns e m) = some vs2 ∧
        lookupV t.id (applySpring sq ns e m) = some vt2 ∧
        vs2.1 + vt2.1 = vs.1 + vt.1 ∧ vs2.2 + vt2.2 = vs.2 + vt.2) := by
  constructor
  · intro va vb hab hva hvb
    have h1 : lookupV a.id (applyRepulsion sq a b m) =
        some (va.1 - (b.x - a.x) / sq (effDistSq a b) * repForce sq a b,
              va.2 - (b.y - a.y) / sq (effDistSq a b) * repForce sq a b) := by
      unfold applyRepulsion
      rw [lookupV_updV, if_neg (fun h => hab h.symm), lookupV_updV, if_pos rfl, hva]
      rfl
    have h2 : lookupV b.id (applyRepulsion sq a b m) =
        some (vb.1 + (b.x - a.x) / sq (effDistSq a b) * repForce sq a b,
              vb.2 + (b.y - a.y) / sq (effDistSq a b) * repForce sq a b) := by
      unfold applyRepulsion
      rw [lookupV_updV, if_pos rfl, lookupV_updV, if_neg hab, hvb]
      rfl
    exact ⟨_, _, h1, h2, by ring, by ring⟩
  · intro s t vs vt hfs hft hst hvs hvt
    have h1 : lookupV s.id (applySpring sq ns e m) =
        some (vs.1 + (t.x - s.x) /
            (if sq ((t.x - s.x) * (t.x - s.x) + (t.y - s.y) * (t.y - s.y)) = 0 then 1
              else sq ((t.x - s.x) * (t.x - s.x) + (t.y - s.y) * (t.y - s.y))) *
            (((if sq ((t.x - s.x) * (t.x - s.x) + (t.y - s.y) * (t.y - s.y)) = 0 then 1
              else sq ((t.x - s.x) * (t.x - s.x) + (t.y - s.y) * (t.y - s.y))) -
              IDEAL_DISTANCE) * SPRING_STRENGTH),
          vs.2 + (t.y - s.y) /
            (if sq ((t.x - s.x) * (t.x - s.x) + (t.y - s.y) * (t.y - s.y)) = 0 then 1
              else sq ((t.x - s.x) * (t.x - s.x) + (t.y - s.y) * (t.y - s.y))) *
            (((if sq ((t.x - s.x) * (t.x - s.x) + (t.y - s.y) * (t.y - s.y)) = 0 then 1
              else sq ((t.x - s.x) * (t.x - s.x) + (t.y - s.y) * (t.y - s.y))) -
              IDEAL_DISTANCE) * SPRING_STRENGTH)) := by
      unfold applySpring
      rw [hfs, hft]
      simp only
      rw [lookupV_updV, if_neg (fun h => hst h.symm), lookupV_updV, if_pos rfl, hvs]
      simp
    have h2 : lookupV t.id (applySpring sq ns e m) =
        some (vt.1 - (t.x - s.x) /
            (if sq ((t.x - s.x) * (t.x - s.x) + (t.y - s.y) * (t.y - s.y)) = 0 then 1
              else sq ((t.x - s.x) * (t.x - s.x) + (t.y - s.y) * (t.y - s.y))) *
            (((if sq ((t.x - s.x) * (t.x - s.x) + (t.y - s.y) * (t.y - s.y)) = 0 then 1
              else sq ((t.x - s.x) * (t.x - s.x) + (t.y - s.y) * (t.y - s.y))) -
              IDEAL_DISTANCE) * SPRING_STRENGTH),
          vt.2 - (t.y - s.y) /
            (if sq ((t.x - s.x) * (t.x - s.x) + (t.y - s.y) * (t.y - s.y)) = 0 then 1
              else sq ((t.x - s.x) * (t.x - s.x) + (t.y - s.y) * (t.y - s.y))) *
            (((if sq ((t.x - s.x) * (t.x - s.x) + (t.y - s.y) * (t.y - s.y)) = 0 then 1
              else sq ((t.x - s.x) * (t.x - s.x) + (t.y - s.y) * (t.y - s.y))) -
              IDEAL_DISTANCE) * SPRING_STRENGTH)) := by
      unfold applySpring
      rw [hfs, hft]
      simp only
      rw [lookupV_updV, if_pos rfl, lookupV_updV, if_neg hst, hvt]
      simp
    exact ⟨_, _, h1, h2, by ring, by ring⟩

/-- Witness for C10: two nodes at `(0,0)` and `(3,4)` with velocities
`(1,2)` and `(3,4)`; both the repulsion pair and a spring edge between
them leave the velocity sums `1 + 3` and `2 + 4` unchanged. -/
theorem claim_C10_witness :
    (∃ va2 vb2,
      lookupV "a" (applyRepulsion (fun _ => 5)
        ⟨"a", "a", "a", 0, 0, none, none, 0, false, false, none⟩
        ⟨"b", "b", "b", 3, 4, none, none, 0, false, false, none⟩
        [("a", (1, 2)), ("b", (3, 4))]) = some va2 ∧
      lookupV "b" (applyRepulsion (fun _ => 5)
        ⟨"a", "a", "a", 0, 0, none, none, 0, false, false, none⟩
        ⟨"b", "b", "b", 3, 4, none, none, 0, false, false, none⟩
        [("a", (1, 2)), ("b", (3, 4))]) = some vb2 ∧
      va2.1 + vb2.1 = 1 + 3 ∧ va2.2 + vb2.2 = 2 + 4) ∧
    (∃ vs2 vt2,
      lookupV "a" (applySpring (fun _ => 5)
        [⟨"a", "a", "a", 0, 0, none, none, 0, false, false, none⟩,
         ⟨"b", "b", "b", 3, 4, none, none, 0, false, false, none⟩]
        ⟨"e", "a", "b"⟩ [("a", (1, 2)), ("b", (3, 4))]) = some vs2 ∧
      lookupV "b" (applySpring (fun _ => 5)
        [⟨"a", "a", "a", 0, 0, none, none, 0, false, false, none⟩,
         ⟨"b", "b", "b", 3, 4, none, none, 0, false, false, none⟩]
        ⟨"e", "a", "b"⟩ [("a", (1, 2)), ("b", (3, 4))]) = some vt2 ∧
      vs2.1 + vt2.1 = 1 + 3 ∧ vs2.2 + vt2.2 = 2 + 4) := by
  constructor
  · exact (claim_C10 (fun _ => 5)
      ⟨"a", "a", "a", 0, 0, none, none, 0, false, false, none⟩
      ⟨"b", "b", "b", 3, 4, none, none, 0, false, false, none⟩
      [("a", (1, 2)), ("b", (3, 4))] [] ⟨"e", "a", "b"⟩).1 (1, 2) (3, 4)
      (by simp) (by simp [lookupV]) (by simp [lookupV])
  · exact (claim_C10 (fun _ => 5)
      ⟨"a", "a", "a", 0, 0, none, none, 0, false, false, none⟩
      ⟨"b", "b", "b", 3, 4, none, none, 0, false, false, none⟩
      [("a", (1, 2)), ("b", (3, 4))]
      [⟨"a", "a", "a", 0, 0, none, none, 0, false, false, none⟩,
       ⟨"b", "b", "b", 3, 4, none, none, 0, false, false, none⟩]
      ⟨"e", "a", "b"⟩).2
      ⟨"a", "a", "a", 0, 0, none, none, 0, false, false, none⟩
      ⟨"b", "b", "b", 3, 4, none, none, 0, false, false, none⟩
      (1, 2) (3, 4)
      (by simp [List.find?]) (by simp [List.find?]) (by simp)
      (by simp [lookupV]) (by simp [lookupV])

theorem applySpring_invalid (sq : ℚ → ℚ) (ns : List NodeT) (e : Edge) (m : VelMap)
    (h : validEdge ns e = false) : applySpring sq ns e m = m := by
  unfold validEdge at h
  cases hs : ns.find? (fun n => n.id = e.source) <;>
    cases ht : ns.find? (fun n => n.id = e.target) <;>
      simp [applySpring, hs, ht] <;> simp [hs, ht] at h

theorem springStep_filter (sq : ℚ → ℚ) (ns : List NodeT) (es : List Edge) :
    ∀ m, springStep sq ns es m = springStep sq ns (es.filter (validEdge ns)) m := by
  induction es with
  | nil => intro m; rfl
  | cons e rest ih =>
    intro m
    by_cases hv : validEdge ns e = true
    · simp only [springStep, List.foldl_cons, List.filter_cons, hv, if_pos]
      exact ih (applySpring sq ns e m)
    · have hv2 : validEdge ns e = false := by
        cases h : validEdge ns e
        · rfl
        · exact absurd h hv
      simp only [springStep, List.foldl_cons, List.filter_cons, hv2]
      rw [applySpring_invalid sq ns e m hv2]
      exact ih m

/-- C7: the spring-force computation skips every edge whose source or
target id resolves to no node, so running it (and hence a whole layout
tick) on an edge list containing dangling edges gives exactly the same
velocities and positions as running it on the edge list with those edges
filtered out; being a total function it cannot throw. -/
theorem claim_C7 (sq : ℚ → ℚ) (winW winH : ℚ) (st : PhysState)
    (ns : List NodeT) (es : List Edge) (m : VelMap) :
    springStep sq ns es m = springStep sq ns (es.filter (validEdge ns)) m ∧
    (updatePhysics sq winW winH st).nodes =
      (updatePhysics sq winW winH
        { st with edges := st.edges.filter (validEdge st.nodes) }).nodes ∧
    (updatePhysics sq winW winH st).vels =
      (updatePhysics sq winW winH
        { st with edges := st.edges.filter (validEdge st.nodes) }).vels := by
  refine ⟨springStep_filter sq ns es m, ?_, ?_⟩ <;>
    by_cases h : st.nodes = [] <;>
      simp only [updatePhysics, h, if_pos, if_neg, ← springStep_filter] <;>
        simp [h]

theorem expandResults_length (co si : ℚ → ℚ) (pi : ℚ) (target : NodeT) (num : ℕ) :
    ∀ (ts : List Trend) (ids : List String) (i : ℕ),
      (expandResults co si pi target num i ts ids).length = min ts.length ids.length := by
  intro ts
  induction ts with
  | nil =>
    intro ids i
    cases ids <;> simp [expandResults]
  | cons t ts2 ih =>
    intro ids i
    cases ids with
    | nil => simp [expandResults]
    | cons id ids2 =>
      simp [expandResults, ih ids2 (i + 1)]
      omega

theorem expandResults_get (co si : ℚ → ℚ) (pi : ℚ) (target : NodeT) (num : ℕ) :
    ∀ (ts : List Trend) (ids : List String) (i j : ℕ) (hj : j < ts.length)
      (hjids : j < ids.length)
      (h : j < (expandResults co si pi target num i ts ids).length),
      (expandResults co si pi target num i ts ids).get ⟨j, h⟩ =
        mkExpandedNode co si pi target num (i + j) (ts.get ⟨j, hj⟩) (ids.get ⟨j, hjids⟩) := by
  intro ts
  induction ts with
  | nil =>
    intro ids i j hj
    simp at hj
  | cons t ts2 ih =>
    intro ids i j hj hjids h
    cases ids with
    | nil => simp at hjids
    | cons id ids2 =>
      cases j with
      | zero => simp [expandResults]
      | succ j2 =>
        have hj2 : j2 < ts2.length := by simpa using hj
        have hjids2 : j2 < ids2.length := by simpa using hjids
        have h2 : j2 < (expandResults co si pi target num (i + 1) ts2 ids2).length := by
          simpa [expandResults] using h
        simp only [expandResults, List.get_cons_succ]
        rw [ih ids2 (i + 1) j2 hj2 hjids2 h2]
        have harith : i + 1 + j2 = i + (j2 + 1) := by omega
        rw [harith]

/-- C4: a successful expansion with `N ≥ 1` results creates exactly `N`
new nodes (and one new edge per node), the `i`-th node sitting on the
circle of radius 80 around the source at angle `2·π·i/N`, seeded with an
outward velocity along the same angle (sixteen times the velocity vector
is exactly the positional offset from the source), joined to the source
by an edge from the source id to the new node id, with level
`source.level + 1`. -/
theorem claim_C4 (co si : ℚ → ℚ) (pi : ℚ) (target : NodeT) (trends : List Trend)
    (ids : List String) (hlen : ids.length = trends.length) (hN : 1 ≤ trends.length)
    (i : ℕ) (hi : i < trends.length) :
    (expandResults co si pi target trends.length 0 trends ids).length = trends.length ∧
    ∃ h : i < (expandResults co si pi target trends.length 0 trends ids).length,
      ((expandResults co si pi target trends.length 0 trends ids).get ⟨i, h⟩).1.x =
        target.x + co (2 * pi * (i : ℚ) / (trends.length : ℚ)) * 80 ∧
      ((expandResults co si pi target trends.length 0 trends ids).get ⟨i, h⟩).1.y =
        target.y + si (2 * pi * (i : ℚ) / (trends.length : ℚ)) * 80 ∧
      ((expandResults co si pi target trends.length 0 trends ids).get ⟨i, h⟩).2.2.2.1 =
        co (2 * pi * (i : ℚ) / (trends.length : ℚ)) * 5 ∧
      ((expandResults co si pi target trends.length 0 trends ids).get ⟨i, h⟩).2.2.2.2 =
        si (2 * pi * (i : ℚ) / (trends.length : ℚ)) * 5 ∧
      ((expandResults co si pi target trends.length 0 trends ids).get ⟨i, h⟩).2.2.2.1 * 16 =
        ((expandResults co si pi target trends.length 0 trends ids).get ⟨i, h⟩).1.x - target.x ∧
      ((expandResults co si pi target trends.length 0 trends ids).get ⟨i, h⟩).2.2.2.2 * 16 =
        ((expandResults co si pi target trends.length 0 trends ids).get ⟨i, h⟩).1.y - target.y ∧
      ((expandResults co si pi target trends.length 0 trends ids).get ⟨i, h⟩).2.1.source =
        target.id ∧
      ((expandResults co si pi target trends.length 0 trends ids).get ⟨i, h⟩).2.1.target =
        ((expandResults co si pi target trends.length 0 trends ids).get ⟨i, h⟩).1.id ∧
      ((expandResults co si pi target trends.length 0 trends ids).get ⟨i, h⟩).2.2.1 =
        ((expandResults co si pi target trends.length 0 trends ids).get ⟨i, h⟩).1.id ∧
      ((expandResults co si pi target trends.length 0 trends ids).get ⟨i, h⟩).1.level =
        target.level + 1 := by
  have hL : (expandResults co si pi target trends.length 0 trends ids).length =
      trends.length := by
    rw [expandResults_length, hlen]
    simp
  refine ⟨hL, ⟨by omega, ?_⟩⟩
  have hids : i < ids.length := by omega
  have hget := expandResults_get co si pi target trends.length trends ids 0 i hi hids
    (by omega)
  rw [Nat.zero_add] at hget
  have hangle : 2 * pi * (i : ℚ) / (trends.length : ℚ) =
      ((i : ℚ) / (trends.length : ℚ)) * pi * 2 := by ring
  rw [hangle, hget]
  refine ⟨rfl, rfl, rfl, rfl, ?_, ?_, rfl, rfl, rfl, rfl⟩
  · show co (((i : ℚ) / (trends.length : ℚ)) * pi * 2) * 5 * 16 =
      target.x + co (((i : ℚ) / (trends.length : ℚ)) * pi * 2) * 80 - target.x
    ring
  · show si (((i : ℚ) / (trends.length : ℚ)) * pi * 2) * 5 * 16 =
      target.y + si (((i : ℚ) / (trends.length : ℚ)) * pi * 2) * 80 - target.y
    ring

/-- Witness for C4: expanding a node at the origin with two results and
two fresh ids, checked at index 1 with a constant cosine/sine pair. -/
theorem claim_C4_witness :
    (expandResults (fun _ => 1) (fun _ => 0) 3
      ⟨"src", "s", "s", 0, 0, none, none, 2, false, false, none⟩ 2 0
      [⟨"k1", "t1", 5⟩, ⟨"k2", "t2", 7⟩] ["idA", "idB"]).length = 2 ∧
    ∃ h : 1 < (expandResults (fun _ => 1) (fun _ => 0) 3
      ⟨"src", "s", "s", 0, 0, none, none, 2, false, false, none⟩ 2 0
      [⟨"k1", "t1", 5⟩, ⟨"k2", "t2", 7⟩] ["idA", "idB"]).length,
      ((expandResults (fun _ => 1) (fun _ => 0) 3
        ⟨"src", "s", "s", 0, 0, none, none, 2, false, false, none⟩ 2 0
        [⟨"k1", "t1", 5⟩, ⟨"k2", "t2", 7⟩] ["idA", "idB"]).get ⟨1, h⟩).1.x =
          0 + 1 * 80 ∧
      ((expandResults (fun _ => 1) (fun _ => 0) 3
        ⟨"src", "s", "s", 0, 0, none, none, 2, false, false, none⟩ 2 0
        [⟨"k1", "t1", 5⟩, ⟨"k2", "t2", 7⟩] ["idA", "idB"]).get ⟨1, h⟩).1.level = 3 := by
  have h := claim_C4 (fun _ => 1) (fun _ => 0) 3
    ⟨"src", "s", "s", 0, 0, none, none, 2, false, false, none⟩
    [⟨"k1", "t1", 5⟩, ⟨"k2", "t2", 7⟩] ["idA", "idB"] rfl (by norm_num) 1 (by norm_num)
  obtain ⟨hlen, hin, hx, hy, hv1, hv2, hp1, hp2, hsrc, htgt, hvid, hlev⟩ := h
  exact ⟨hlen, hin, by simpa using hx, by simpa using hlev⟩

/-- C5: an expansion whose service call rejects, or which returns zero
results, leaves the node list, the edge list and the velocity table
exactly as they were before the call, and on every outcome — success,
empty or failure — the expanding mark is cleared (and the loading flag
dropped) by the `finally`-equivalent. -/
theorem claim_C5 (co si : ℚ → ℚ) (pi : ℚ) (st : AppState2) (target : NodeT)
    (ids : List String) (h1 : st.loading = false) (h2 : st.hasMoved = false) :
    (handleNodeClick2 co si pi st target (.error ()) ids).nodes = st.nodes ∧
    (handleNodeClick2 co si pi st target (.error ()) ids).edges = st.edges ∧
    (handleNodeClick2 co si pi st target (.error ()) ids).vels = st.vels ∧
    (handleNodeClick2 co si pi st target (.ok []) ids).nodes = st.nodes ∧
    (handleNodeClick2 co si pi st target (.ok []) ids).edges = st.edges ∧
    (handleNodeClick2 co si pi st target (.ok []) ids).vels = st.vels ∧
    (∀ result, (handleNodeClick2 co si pi st target result ids).expandingNodeId = none ∧
      (handleNodeClick2 co si pi st target result ids).loading = false) := by
  have hids : expandResults co si pi target 0 0 [] ids = [] := by
    cases ids <;> rfl
  refine ⟨?_, ?_, ?_, ?_, ?_, ?_, ?_⟩
  · simp [handleNodeClick2, h1, h2]
  · simp [handleNodeClick2, h1, h2]
  · simp [handleNodeClick2, h1, h2]
  · simp [handleNodeClick2, h1, h2, hids]
  · simp [handleNodeClick2, h1, h2, hids]
  · simp [handleNodeClick2, h1, h2, hids, seedVels]
  · intro result
    cases result <;> simp [handleNodeClick2, h1, h2]

/-- Witness for C5: a one-node graph; a rejected call and an empty result
both leave the collections untouched and clear the expanding mark. -/
theorem claim_C5_witness :
    (handleNodeClick2 (fun _ => 1) (fun _ => 0) 3
      ⟨[⟨"r", "r", "r", 0, 0, none, none, 0, false, true, none⟩], [], [("r", (0, 0))],
        false, some "r", false⟩
      ⟨"r", "r", "r", 0, 0, none, none, 0, false, true, none⟩ (.error ()) ["x1"]).nodes =
      [⟨"r", "r", "r", 0, 0, none, none, 0, false, true, none⟩] ∧
    (handleNodeClick2 (fun _ => 1) (fun _ => 0) 3
      ⟨[⟨"r", "r", "r", 0, 0, none, none, 0, false, true, none⟩], [], [("r", (0, 0))],
        false, some "r", false⟩
      ⟨"r", "r", "r", 0, 0, none, none, 0, false, true, none⟩ (.ok []) ["x1"]).edges = [] ∧
    (handleNodeClick2 (fun _ => 1) (fun _ => 0) 3
      ⟨[⟨"r", "r", "r", 0, 0, none, none, 0, false, true, none⟩], [], [("r", (0, 0))],
        false, some "r", false⟩
      ⟨"r", "r", "r", 0, 0, none, none, 0, false, true, none⟩
      (.ok [⟨"k", "t", 5⟩]) ["x1"]).expandingNodeId = none := by
  have h := claim_C5 (fun _ => 1) (fun _ => 0) 3
    ⟨[⟨"r", "r", "r", 0, 0, none, none, 0, false, true, none⟩], [], [("r", (0, 0))],
      false, some "r", false⟩
    ⟨"r", "r", "r", 0, 0, none, none, 0, false, true, none⟩ ["x1"] rfl rfl
  exact ⟨h.1, h.2.2.2.2.1, (h.2.2.2.2.2.2 (.ok [⟨"k", "t", 5⟩])).1⟩

/-- C6: in the d3 version, a click on a node whose expansion is still
outstanding is a complete no-op — the state is returned unchanged and the
service is not called — while a click on a node not in the expanding set
proceeds (the service is called) even when other expansions are
outstanding, and those other nodes' expanding marks survive the call. -/
theorem claim_C6 (co si : ℚ → ℚ) (pi : ℚ) (st : AppState1) (target : NodeT)
    (result : Except Unit (List Trend)) (ids : List String) :
    (target.id ∈ st.expanding →
      handleNodeClick1 co si pi st target result ids = (st, false)) ∧
    (st.hasMoved = false → target.id ∉ st.expanding →
      (handleNodeClick1 co si pi st target result ids).2 = true) ∧
    (st.hasMoved = false → target.id ∉ st.expanding →
      ∀ x ∈ st.expanding, x ≠ target.id →
        x ∈ (handleNodeClick1 co si pi st target result ids).1.expanding) := by
  refine ⟨?_, ?_, ?_⟩
  · intro hmem
    simp [handleNodeClick1, hmem]
  · intro hm hmem
    cases result with
    | ok ts =>
      by_cases hlen : ts.length = 0 <;> simp [handleNodeClick1, hm, hmem, hlen]
    | error e => simp [handleNodeClick1, hm, hmem]
  · intro hm hmem x hx hne
    cases result with
    | ok ts =>
      by_cases hlen : ts.length = 0 <;>
        simp [handleNodeClick1, hm, hmem, hlen, List.mem_filter, hx, hne]
    | error e => simp [handleNodeClick1, hm, hmem, List.mem_filter, hx, hne]

/-- Witness for C6: with node `n1`'s expansion outstanding, re-clicking
`n1` is a no-op without a service call, while clicking `n2` proceeds and
`n1` stays marked as expanding. -/
theorem claim_C6_witness :
    (handleNodeClick1 (fun _ => 1) (fun _ => 0) 3
      ⟨[], [], [], none, ["n1"], false, false⟩
      ⟨"n1", "a", "a", 0, 0, none, none, 0, false, false, none⟩ (.ok [⟨"k", "t", 5⟩]) ["f1"] =
      (⟨[], [], [], none, ["n1"], false, false⟩, false)) ∧
    (handleNodeClick1 (fun _ => 1) (fun _ => 0) 3
      ⟨[], [], [], none, ["n1"], false, false⟩
      ⟨"n2", "b", "b", 0, 0, none, none, 0, false, false, none⟩
      (.ok [⟨"k", "t", 5⟩]) ["f1"]).2 = true ∧
    "n1" ∈ (handleNodeClick1 (fun _ => 1) (fun _ => 0) 3
      ⟨[], [], [], none, ["n1"], false, false⟩
      ⟨"n2", "b", "b", 0, 0, none, none, 0, false, false, none⟩
      (.ok [⟨"k", "t", 5⟩]) ["f1"]).1.expanding := by
  refine ⟨?_, ?_, ?_⟩
  · exact (claim_C6 (fun _ => 1) (fun _ => 0) 3
      ⟨[], [], [], none, ["n1"], false, false⟩
      ⟨"n1", "a", "a", 0, 0, none, none, 0, false, false, none⟩
      (.ok [⟨"k", "t", 5⟩]) ["f1"]).1 (by simp)
  · exact (claim_C6 (fun _ => 1) (fun _ => 0) 3
      ⟨[], [], [], none, ["n1"], false, false⟩
      ⟨"n2", "b", "b", 0, 0, none, none, 0, false, false, none⟩
      (.ok [⟨"k", "t", 5⟩]) ["f1"]).2.1 rfl (by simp)
  · exact (claim_C6 (fun _ => 1) (fun _ => 0) 3
      ⟨[], [], [], none, ["n1"], false, false⟩
      ⟨"n2", "b", "b", 0, 0, none, none, 0, false, false, none⟩
      (.ok [⟨"k", "t", 5⟩]) ["f1"]).2.2 rfl (by simp) "n1" (by simp) (by simp)

theorem lookupV_freshEngineVels (id : String) :
    ∀ ns : List NodeT, id ∈ ns.map (fun n => n.id) →
      lookupV id (freshEngineVels ns) = some (0, 0) := by
  intro ns
  induction ns with
  | nil => simp
  | cons n rest ih =>
    intro hmem
    by_cases h : n.id = id
    · simp [freshEngineVels, lookupV, h]
    · have : id ∈ rest.map (fun n => n.id) := by
        rcases List.mem_map.mp hmem with ⟨m, hm, hid⟩
        cases hm with
        | head => exact absurd hid h
        | tail _ hm2 => exact List.mem_map.mpr ⟨m, hm2, hid⟩
      simp only [freshEngineVels, List.map_cons, lookupV, if_neg h]
      exact ih this

/-- C8: recording prepends a snapshot holding the full node and edge
lists to the front of the history log; restoring a snapshot returns the
stored edges unchanged and the stored nodes with every field preserved
except the pin fields `fx`/`fy`, which are cleared; and the fresh layout
engine state created for the restored graph gives every restored node
velocity zero. -/
theorem claim_C8 (histId query : String) (ts : Int) (ns : List NodeT)
    (es : List Edge) (h : List Hist) (item : Hist) (i : ℕ) (id : String) :
    recordHistory histId query ts ns es h =
      ({ id := histId, query := query, timestamp := ts, nodes := ns, edges := es } : Hist) :: h ∧
    (restoreHistory item).2 = item.edges ∧
    (restoreHistory item).1.length = item.nodes.length ∧
    (∀ hi : i < item.nodes.length,
      ∃ hj : i < (restoreHistory item).1.length,
        ((restoreHistory item).1.get ⟨i, hj⟩).id = (item.nodes.get ⟨i, hi⟩).id ∧
        ((restoreHistory item).1.get ⟨i, hj⟩).label = (item.nodes.get ⟨i, hi⟩).label ∧
        ((restoreHistory item).1.get ⟨i, hj⟩).translation =
          (item.nodes.get ⟨i, hi⟩).translation ∧
        ((restoreHistory item).1.get ⟨i, hj⟩).x = (item.nodes.get ⟨i, hi⟩).x ∧
        ((restoreHistory item).1.get ⟨i, hj⟩).y = (item.nodes.get ⟨i, hi⟩).y ∧
        ((restoreHistory item).1.get ⟨i, hj⟩).level = (item.nodes.get ⟨i, hi⟩).level ∧
        ((restoreHistory item).1.get ⟨i, hj⟩).isSelected =
          (item.nodes.get ⟨i, hi⟩).isSelected ∧
        ((restoreHistory item).1.get ⟨i, hj⟩).isInitial =
          (item.nodes.get ⟨i, hi⟩).isInitial ∧
        ((restoreHistory item).1.get ⟨i, hj⟩).weight = (item.nodes.get ⟨i, hi⟩).weight ∧
        ((restoreHistory item).1.get ⟨i, hj⟩).fx = none ∧
        ((restoreHistory item).1.get ⟨i, hj⟩).fy = none) ∧
    (id ∈ ns.map (fun n => n.id) → lookupV id (freshEngineVels ns) = some (0, 0)) := by
  refine ⟨rfl, rfl, by simp [restoreHistory], ?_, lookupV_freshEngineVels id ns⟩
  intro hi
  have hj : i < (restoreHistory item).1.length := by simp [restoreHistory, hi]
  refine ⟨hj, ?_⟩
  have hget : (restoreHistory item).1.get ⟨i, hj⟩ =
      clearPin (item.nodes.get ⟨i, hi⟩) := by
    simp [restoreHistory]
  rw [hget]
  exact ⟨rfl, rfl, rfl, rfl, rfl, rfl, rfl, rfl, rfl, rfl, rfl⟩

/-- Witness for C8: a one-entry record prepended to an existing log, and
a snapshot with a pinned node whose pin is cleared on restore while its
position survives; the fresh engine state gives it velocity zero. -/
theorem claim_C8_witness :
    recordHistory "h2" "q" 7
      [⟨"n", "n", "n", 1, 2, some 9, some 9, 0, false, false, none⟩] []
      [⟨"h1", "old", 0, [], []⟩] =
      (⟨"h2", "q", 7, [⟨"n", "n", "n", 1, 2, some 9, some 9, 0, false, false, none⟩], []⟩ :
        Hist) :: [⟨"h1", "old", 0, [], []⟩] ∧
    (∃ hj : 0 < (restoreHistory
        ⟨"h2", "q", 7, [⟨"n", "n", "n", 1, 2, some 9, some 9, 0, false, false, none⟩],
          []⟩).1.length,
      ((restoreHistory
        ⟨"h2", "q", 7, [⟨"n", "n", "n", 1, 2, some 9, some 9, 0, false, false, none⟩],
          []⟩).1.get ⟨0, hj⟩).x = 1 ∧
      ((restoreHistory
        ⟨"h2", "q", 7, [⟨"n", "n", "n", 1, 2, some 9, some 9, 0, false, false, none⟩],
          []⟩).1.get ⟨0, hj⟩).fx = none) ∧
    lookupV "n" (freshEngineVels
      [⟨"n", "n", "n", 1, 2, some 9, some 9, 0, false, false, none⟩]) = some (0, 0) := by
  have h := claim_C8 "h2" "q" 7
    [⟨"n", "n", "n", 1, 2, some 9, some 9, 0, false, false, none⟩] []
    [⟨"h1", "old", 0, [], []⟩]
    ⟨"h2", "q", 7, [⟨"n", "n", "n", 1, 2, some 9, some 9, 0, false, false, none⟩], []⟩
    0 "n"
  obtain ⟨hrec, hedges, hlen, hfields, hvel⟩ := h
  obtain ⟨hj, hfield⟩ := hfields (by norm_num)
  exact ⟨hrec, ⟨hj, hfield.2.2.2.1, hfield.2.2.2.2.2.2.2.2.2.1⟩, hvel (by simp)⟩

theorem mkNodes1_ids (co si : ℚ → ℚ) (pi : ℚ) (target : NodeT) (num : ℕ) :
    ∀ (ts : List Trend) (idl : List String) (i : ℕ),
      (mkNodes1 co si pi target num i ts idl).map (fun n => n.id) = idl.take ts.length := by
  intro ts
  induction ts with
  | nil => intro idl i; cases idl <;> simp [mkNodes1]
  | cons t ts2 ih =>
    intro idl i
    cases idl with
    | nil => simp [mkNodes1]
    | cons id idl2 =>
      simp [mkNodes1, mkNode1, ih idl2 (i + 1)]

/-- C9: every graph state reachable through root creation,
connect-to-selection or expansion (with the 9-character random ids
assumed collision-free, which the code does not check) has pairwise
distinct node ids. -/
theorem claim_C9 (st : AppState1) (h : ReachS st) :
    (st.nodes.map (fun n => n.id)).Nodup := by
  induction h with
  | init => simp
  | input st2 query isChinese nodeId histId ts rx ry winW winH h hfresh ih =>
    unfold handleInitialInput1
    split
    · exact ih
    · by_cases hsel : (st2.nodes.filter (fun n => n.isSelected)).length > 0
      · simp only [if_pos hsel, List.map_append, List.nodup_append]
        refine ⟨ih, by simp, ?_⟩
        intro a ha hb
        simp only [List.map_cons, List.map_nil, List.mem_singleton] at hb
        subst hb
        exact hfresh ha
      · simp only [if_neg hsel]
        simp
  | click st2 co si pi target result ids h hnodup hfresh ih =>
    simp only [handleNodeClick1]
    split
    · exact ih
    · cases result with
      | ok ts2 =>
        by_cases hlen : ts2.length = 0
        · simp only [hlen, if_pos]
          exact ih
        · simp only [if_neg hlen, List.map_append, List.nodup_append]
          refine ⟨ih, ?_, ?_⟩
          · rw [mkNodes1_ids]
            exact hnodup.sublist (List.take_sublist _ _)
          · intro a ha hb
            rw [mkNodes1_ids] at hb
            exact absurd ha (hfresh a (List.mem_of_mem_take hb))
      | error e =>
        exact ih

/-- Witness for C9: starting from the empty state, create a root node and
expand it once with one result; the resulting two ids are distinct. -/
theorem claim_C9_witness :
    (((handleNodeClick1 (fun _ => 1) (fun _ => 0) 3
        (handleInitialInput1 ⟨[], [], [], none, [], false, false⟩
          "query" false "root1" "h1" 0 0 0 800 600)
        ⟨"root1", "query", "query", 400, 300, none, none, 0, false, true, some 10⟩
        (.ok [⟨"k", "t", 5⟩]) ["c1"]).1.nodes.map (fun n => n.id)).Nodup) := by
  have h0 := ReachS.init
  have h1 := ReachS.input ⟨[], [], [], none, [], false, false⟩
    "query" false "root1" "h1" 0 0 0 800 600 h0 (by simp)
  have h2 := ReachS.click
    (handleInitialInput1 ⟨[], [], [], none, [], false, false⟩
      "query" false "root1" "h1" 0 0 0 800 600)
    (fun _ => 1) (fun _ => 0) 3
    ⟨"root1", "query", "query", 400, 300, none, none, 0, false, true, some 10⟩
    (.ok [⟨"k", "t", 5⟩]) ["c1"] h1 (by simp)
    (by
      intro id hid
      simp only [List.mem_singleton] at hid
      subst hid
      simp [handleInitialInput1])
  exact claim_C9 _ h2

theorem integrateStep_length (sq : ℚ → ℚ) (dragId : Option String) :
    ∀ (ns : List NodeT) (m : VelMap),
      (integrateStep sq dragId m ns).1.length = ns.length := by
  intro ns
  induction ns with
  | nil => intro m; rfl
  | cons n rest ih => intro m; simp [integrateStep, ih]

theorem integrateStep_get_dragged (sq : ℚ → ℚ) (d : String) :
    ∀ (ns : List NodeT) (m : VelMap) (i : ℕ) (hi : i < ns.length),
      (ns.get ⟨i, hi⟩).id = d →
      ∃ hj : i < (integrateStep sq (some d) m ns).1.length,
        (integrateStep sq (some d) m ns).1.get ⟨i, hj⟩ = ns.get ⟨i, hi⟩ := by
  intro ns
  induction ns with
  | nil => intro m i hi; simp at hi
  | cons n rest ih =>
    intro m i hi hid
    cases i with
    | zero =>
      refine ⟨by simp [integrateStep_length], ?_⟩
      simp only [List.get] at hid
      simp [integrateStep, integrateNode, hid]
    | succ i2 =>
      have hi2 : i2 < rest.length := by simpa using hi
      obtain ⟨hj2, heq⟩ := ih (integrateNode sq (some d) m n).2 i2 hi2 (by simpa using hid)
      refine ⟨by simp [integrateStep_length]; omega, ?_⟩
      simp only [integrateStep, List.get_cons_succ]
      exact heq

theorem updatePhysics_dragged (sq : ℚ → ℚ) (winW winH : ℚ) (st : PhysState) (d : String)
    (i : ℕ) (hi : i < st.nodes.length) (hdrag : st.dragId = some d)
    (hid : (st.nodes.get ⟨i, hi⟩).id = d) :
    ∃ hj : i < (updatePhysics sq winW winH st).nodes.length,
      (updatePhysics sq winW winH st).nodes.get ⟨i, hj⟩ = st.nodes.get ⟨i, hi⟩ ∧
      (updatePhysics sq winW winH st).dragId = some d := by
  by_cases hnil : st.nodes = []
  · rw [hnil] at hi
    simp at hi
  · have hres : updatePhysics sq winW winH st =
        { st with
          nodes := (integrateStep sq (some d)
            (gravityStep winW winH st.nodes
              (springStep sq st.nodes st.edges
                (repulsionStep sq st.nodes st.vels))) st.nodes).1,
          vels := (integrateStep sq (some d)
            (gravityStep winW winH st.nodes
              (springStep sq st.nodes st.edges
                (repulsionStep sq st.nodes st.vels))) st.nodes).2 } := by
      unfold updatePhysics
      rw [if_neg hnil]
      simp [hdrag]
    rw [hres]
    obtain ⟨hj, heq⟩ := integrateStep_get_dragged sq d st.nodes
      (gravityStep winW winH st.nodes
        (springStep sq st.nodes st.edges (repulsionStep sq st.nodes st.vels)))
      i hi hid
    exact ⟨hj, heq, hdrag⟩

/-- C3 (amended): while a node is dragged, no sequence of layout ticks
changes its node record — in particular its position stays at the pin —
because the integration step skips it, and picking a node up resets its
velocity entry to zero and records it as dragged.  (The original claim's
further assertion, that the pinned node is skipped as a receiver of
step-1 pairwise forces so that releasing resumes from velocity zero, is
false: see the counterexample.) -/
theorem claim_C3 (sq : ℚ → ℚ) (winW winH : ℚ) (st : PhysState) (d : String)
    (i : ℕ) (hi : i < st.nodes.length) (hdrag : st.dragId = some d)
    (hid : (st.nodes.get ⟨i, hi⟩).id = d) (k : ℕ) (n : NodeT) (v : ℚ × ℚ) :
    (∃ hj : i < ((updatePhysics sq winW winH)^[k] st).nodes.length,
      ((updatePhysics sq winW winH)^[k] st).nodes.get ⟨i, hj⟩ =
        st.nodes.get ⟨i, hi⟩) ∧
    (lookupV n.id st.vels = some v →
      lookupV n.id (handleNodeMouseDown st n).vels = some (0, 0) ∧
      (handleNodeMouseDown st n).dragId = some n.id) := by
  constructor
  · have aux : ∀ k2 : ℕ,
        ∃ hj : i < ((updatePhysics sq winW winH)^[k2] st).nodes.length,
          ((updatePhysics sq winW winH)^[k2] st).nodes.get ⟨i, hj⟩ =
            st.nodes.get ⟨i, hi⟩ ∧
          ((updatePhysics sq winW winH)^[k2] st).dragId = some d := by
      intro k2
      induction k2 with
      | zero => exact ⟨hi, rfl, hdrag⟩
      | succ k3 ihk =>
        obtain ⟨hj, heq, hd⟩ := ihk
        have hid2 : (((updatePhysics sq winW winH)^[k3] st).nodes.get ⟨i, hj⟩).id = d := by
          rw [heq]
          exact hid
        obtain ⟨hj2, heq2, hd2⟩ :=
          updatePhysics_dragged sq winW winH _ d i hj hd hid2
        rw [Function.iterate_succ_apply']
        exact ⟨hj2, heq2.trans heq, hd2⟩
    obtain ⟨hj, heq, _⟩ := aux k
    exact ⟨hj, heq⟩
  · intro hv
    exact ⟨by simp [handleNodeMouseDown, lookupV_updV, hv], rfl⟩

/-- Witness for C3 (amended): in the concrete two-node dragged state the
dragged node's record (hence its position) is unchanged after two ticks,
and picking it up resets its velocity entry to zero. -/
theorem claim_C3_witness :
    ∃ hj : 0 < ((updatePhysics cexSqrt 2000 2000)^[2] cexSt).nodes.length,
      (((updatePhysics cexSqrt 2000 2000)^[2] cexSt).nodes.get ⟨0, hj⟩).x = 0 ∧
      (((updatePhysics cexSqrt 2000 2000)^[2] cexSt).nodes.get ⟨0, hj⟩).y = 0 ∧
      lookupV "a" (handleNodeMouseDown cexSt
        ⟨"a", "a", "a", 0, 0, none, none, 0, false, false, none⟩).vels = some (0, 0) := by
  have h := claim_C3 cexSqrt 2000 2000 cexSt "a" 0 (by norm_num [cexSt]) rfl rfl 2
    ⟨"a", "a", "a", 0, 0, none, none, 0, false, false, none⟩ (0, 0)
  obtain ⟨⟨hj, heq⟩, hmd⟩ := h
  refine ⟨hj, ?_, ?_, (hmd (by simp [cexSt, lookupV])).1⟩ <;> rw [heq] <;> rfl

/-- Counterexample for C3 as stated: in the concrete dragged state the
dragged node `a` — picked up with velocity zero — is NOT skipped as a
receiver of forces: after a single tick its velocity entry is no longer
zero (step 1 subtracted the pair force and step 3 added gravity and wall
nudges), so releasing the pin would resume integration from that
accumulated velocity, not from zero.  (`cexSqrt` returns the true square
root, 5, of the only squared distance the dragged node's pair produces.) -/
theorem claim_C3_counterexample :
    cexSt.dragId = some "a" ∧
    lookupV "a" cexSt.vels = some (0, 0) ∧
    lookupV "a" (updatePhysics cexSqrt 2000 2000 cexSt).vels ≠ some (0, 0) := by
  refine ⟨rfl, by simp [cexSt, lookupV], ?_⟩
  have hval : lookupV "a" (updatePhysics cexSqrt 2000 2000 cexSt).vels =
      some (-69 / 2, -48) := by
    norm_num [updatePhysics, cexSt, cexSqrt, repulsionStep, orderedPairs,
      applyRepulsion, repForce, effDistSq, rawDistSq, minSeparation, nodeRadius,
      REPULSION_STRENGTH, springStep, gravityStep, applyGravity, CENTER_GRAVITY,
      integrateStep, integrateNode, DAMPING, lookupV, updV]
  rw [hval]
  intro hcon
  have := Option.some.inj hcon
  have h1 : (-69 / 2 : ℚ) = 0 := congrArg Prod.fst this
  norm_num at h1
